import Mathlib

/-!
Shallow embedding of `src/memcached.cpp`: a minimal binary-protocol
key-value cache server.  The per-connection session reads a 24-byte
header, a body of the declared length, dispatches GET (opcode 0x00) or
SET (opcode 0x01) against a shared map, and writes a framed response.

Modelling conventions:
* a wire byte is a `Nat` (values 0..255 on the wire); byte sequences are
  `List Nat`;
* the `std::map<itemType, itemType> g_itemCache` is an association list
  with at most one entry per key, `storePut` replacing in place exactly
  as `operator[]` assignment does;
* an out-of-bounds vector/iterator access in the source (which is
  undefined behaviour in C++, e.g. reading a key past the end of the
  body buffer) is modelled as failure (`Option.none`): the operation
  produces no response and does not touch the store, and the session
  stops, matching the "minimal error checking" connection-drop style of
  the source;
* the asynchronous callback chain of `session` (`do_read_header` ->
  `do_read_body` -> `do_get`/`do_set` -> `send_response` ->
  `do_read_header`) is, for a single connection, strictly sequential;
  it is modelled as the recursive function `runSession` consuming the
  connection's input byte stream and producing the output byte stream.
-/

/-- Byte sequences as exchanged on the wire and stored in the cache. -/
abbrev Bytes := List Nat

/-- The ASCII bytes of the literal string written on a GET miss, from
`send_response`: `buffer_ = { 'N','o','t',' ','f','o','u','n','d' }`. -/
def notFoundBody : Bytes := [78, 111, 116, 32, 102, 111, 117, 110, 100]

/-- The shared cache `g_itemCache : std::map<itemType, itemType>`,
as an association list from key bytes to stored-value bytes. -/
abbrev Store := List (Bytes × Bytes)

/-- The empty cache, the state of `g_itemCache` at program start. -/
def storeEmpty : Store := []

/-- Lookup in the cache: `g_itemCache.find(key)` of `do_get`. -/
def storeFind (σ : Store) (k : Bytes) : Option Bytes :=
  match σ with
  | [] => none
  | (k', v) :: rest => if k' = k then some v else storeFind rest k

/-- Unconditional insert-or-overwrite: `g_itemCache[key] = value` of
`do_set`.  Replaces the entry for `k` in place when present, appends a
fresh entry otherwise, as `std::map::operator[]` assignment does. -/
def storePut (σ : Store) (k v : Bytes) : Store :=
  match σ with
  | [] => [(k, v)]
  | (k', v') :: rest => if k' = k then (k, v) :: rest else (k', v') :: storePut rest k v

/-- Key length from header bytes 2 and 3: `(header_[2] << 8) + header_[3]`. -/
def headerKeyLength (h : Bytes) : Nat :=
  h.getD 2 0 * 256 + h.getD 3 0

/-- Extras length from header byte 4: `header_[4]`. -/
def headerExtrasLength (h : Bytes) : Nat :=
  h.getD 4 0

/-- Total body length from header bytes 8..11 (big-endian), from
`do_read_body`:
`(header_[8] << 24) + (header_[9] << 16) + (header_[10] << 8) + header_[11]`. -/
def headerBodyLength (h : Bytes) : Nat :=
  h.getD 8 0 * 2 ^ 24 + h.getD 9 0 * 2 ^ 16 + h.getD 10 0 * 2 ^ 8 + h.getD 11 0

/-- Header acceptance test of `do_read_header`:
`header_[0] == 0x80 && (header_[1] == 0x0 || header_[1] == 0x1)`.
Any other magic or opcode makes the session stop without responding. -/
def headerOk (h : Bytes) : Prop :=
  h.getD 0 0 = 0x80 ∧ (h.getD 1 0 = 0 ∨ h.getD 1 0 = 1)

instance (h : Bytes) : Decidable (headerOk h) := by
  unfold headerOk; infer_instance

/-- Key extraction shared by `do_get` and `do_set`: the key is the byte
range `[extrasLength, extrasLength + keyLength)` of the body
(`keyStart = buffer_.begin() + header_[4]`,
`itemType(keyStart, keyStart + keySize)`).  When the body is shorter
than `extrasLength + keyLength` the source's iterator range is out of
bounds (undefined behaviour); this is modelled as `none`. -/
def decodeGetBody (extrasLength keyLength : Nat) (body : Bytes) : Option Bytes :=
  if extrasLength + keyLength ≤ body.length then
    some ((body.drop extrasLength).take keyLength)
  else none

/-- Body decoding of `do_set`: flags are always the first 4 body bytes
(`itemType tempValue(buffer_.begin(), buffer_.begin() + 4)`), the key is
located via the declared extras length as in `decodeGetBody`, and the
value payload is everything after the key region
(`valStart = keyStart + keySize` up to `buffer_.cend()`).  A body
shorter than 4 bytes, or shorter than `extrasLength + keyLength`, makes
the source's iterator ranges out of bounds; modelled as `none`.
Returns `(key, flags, payload)`. -/
def decodeSetBody (extrasLength keyLength : Nat) (body : Bytes) :
    Option (Bytes × Bytes × Bytes) :=
  if 4 ≤ body.length ∧ extrasLength + keyLength ≤ body.length then
    some ((body.drop extrasLength).take keyLength,
          body.take 4,
          body.drop (extrasLength + keyLength))
  else none

/-- Response framing of `send_response status` with the session buffer
holding `buffer`.  Mirrors the source exactly, including the order of
operations: `bodyLength` is captured from the buffer BEFORE the
`status == 1` substitution of the buffer by the literal `Not found`,
then 24 zero bytes are prepended and bytes 0, 4, 6, 7 and 8..11 are
assigned (assignment to `unsigned char` truncates, hence `% 256`). -/
def send_response (status : Nat) (buffer : Bytes) : Bytes :=
  let bodyLength := buffer.length
  let extraLength := if status = 0 ∧ buffer.length ≠ 0 then 4 else 0
  let buffer2 := if status = 1 then notFoundBody else buffer
  0x81 :: 0 :: 0 :: 0 :: extraLength :: 0 :: 0 :: status ::
    (bodyLength / 2 ^ 24 % 256) :: (bodyLength / 2 ^ 16 % 256) ::
    (bodyLength / 2 ^ 8 % 256) :: (bodyLength % 256) ::
    0 :: 0 :: 0 :: 0 :: 0 :: 0 :: 0 :: 0 :: 0 :: 0 :: 0 :: 0 :: buffer2

/-- The GET path `do_get`: extract the key from the body, look it up;
on a hit the buffer becomes (a copy of) the stored value, on a miss it
is cleared; then respond with status `buffer_.size() ? 0 : 1`.  Returns
the (unchanged) store and the response frame, or `none` when the key
extraction is out of bounds in the source. -/
def do_get (σ : Store) (extrasLength keyLength : Nat) (body : Bytes) :
    Option (Store × Bytes) :=
  match decodeGetBody extrasLength keyLength body with
  | none => none
  | some key =>
    let buffer :=
      match storeFind σ key with
      | some v => v
      | none => []
    some (σ, send_response (if buffer.length ≠ 0 then 0 else 1) buffer)

/-- The SET path `do_set`: extract key, flags and payload from the
body, store `flags ++ payload` under the key, clear the buffer and
respond with status 0.  Returns the updated store and the response
frame, or `none` when a decode range is out of bounds in the source. -/
def do_set (σ : Store) (extrasLength keyLength : Nat) (body : Bytes) :
    Option (Store × Bytes) :=
  match decodeSetBody extrasLength keyLength body with
  | none => none
  | some (key, flags, payload) =>
    some (storePut σ key (flags ++ payload), send_response 0 [])

/-- Dispatch on the opcode in header byte 1, as in `do_read_body`:
`0x0` is GET, `0x1` is SET. -/
def dispatch (σ : Store) (header body : Bytes) : Option (Store × Bytes) :=
  if header.getD 1 0 = 0 then
    do_get σ (headerExtrasLength header) (headerKeyLength header) body
  else
    do_set σ (headerExtrasLength header) (headerKeyLength header) body

/-- One connection's session loop over its input byte stream: read 24
header bytes (stop if the stream ends first), check magic and opcode
(stop silently on failure, writing nothing), read the declared body
(stop if the stream ends first), dispatch, emit the response frame, and
loop.  Returns the final store and the concatenation of all response
bytes written, in order. -/
def runSession (σ : Store) (input : Bytes) : Store × Bytes :=
  if _h24 : 24 ≤ input.length then
    let header := input.take 24
    if headerOk header then
      let bodySize := headerBodyLength header
      let rest := input.drop 24
      if bodySize ≤ rest.length then
        let body := rest.take bodySize
        match dispatch σ header body with
        | none => (σ, [])
        | some (σ', frame) =>
          let r := runSession σ' (rest.drop bodySize)
          (r.1, frame ++ r.2)
      else (σ, [])
    else (σ, [])
  else (σ, [])
termination_by input.length
decreasing_by
  simp only [List.length_drop]
  omega

/-- A well-formed client request header as laid out by the wire
protocol: magic 0x80, the given opcode, big-endian key length in bytes
2..3, extras length in byte 4, big-endian total body length in bytes
8..11, reserved bytes zero. -/
def mkRequestHeader (opcode keyLen extras bodyLen : Nat) : Bytes :=
  [0x80, opcode, keyLen / 256 % 256, keyLen % 256, extras, 0, 0, 0,
   bodyLen / 2 ^ 24 % 256, bodyLen / 2 ^ 16 % 256, bodyLen / 2 ^ 8 % 256,
   bodyLen % 256, 0, 0, 0, 0, 0, 0, 0, 0, 0, 0, 0, 0]

/-- A full SET request frame for the given flags (4 bytes), key and
value, with a 4-byte extras block, as a client sends it. -/
def encodeSetRequest (flags key value : Bytes) : Bytes :=
  mkRequestHeader 1 key.length 4 (4 + key.length + value.length) ++
    (flags ++ key ++ value)

/-- A full GET request frame for the given key, with no extras, as a
client sends it. -/
def encodeGetRequest (key : Bytes) : Bytes :=
  mkRequestHeader 0 key.length 0 key.length ++ key

/-- The 16-bit status of a response frame, from header bytes 6 and 7
(big-endian; the source writes `buffer_[6] = 0; buffer_[7] = status`). -/
def respStatus (frame : Bytes) : Nat :=
  frame.getD 6 0 * 256 + frame.getD 7 0

/-- The body bytes of a response frame: everything after the 24-byte
header. -/
def respBody (frame : Bytes) : Bytes :=
  frame.drop 24

/-- One logical cache operation as seen by the store: the opcode with
the declared extras length, declared key length and body bytes of the
request that carried it. -/
inductive Op where
  | get (extrasLength keyLength : Nat) (body : Bytes)
  | set (extrasLength keyLength : Nat) (body : Bytes)

/-- Effect of one operation on the store alone (a failed decode leaves
the store untouched, as the source faults before any map access). -/
def applyOp (σ : Store) : Op → Store
  | .get extrasLength keyLength body =>
    match do_get σ extrasLength keyLength body with
    | some (σ', _) => σ'
    | none => σ
  | .set extrasLength keyLength body =>
    match do_set σ extrasLength keyLength body with
    | some (σ', _) => σ'
    | none => σ

/-- Effect of a sequence of operations on the store, first to last. -/
def applyOps (σ : Store) (ops : List Op) : Store :=
  ops.foldl applyOp σ

/-! ### Store lemmas -/

theorem storeFind_storePut_self (σ : Store) (k v : Bytes) :
    storeFind (storePut σ k v) k = some v := by
  induction σ with
  | nil => simp [storePut, storeFind]
  | cons p rest ih =>
    obtain ⟨k', v'⟩ := p
    by_cases h : k' = k
    · simp [storePut, storeFind, h]
    · simp [storePut, storeFind, h, ih]

theorem storeFind_storePut_ne (σ : Store) (k k' v : Bytes) (h : k' ≠ k) :
    storeFind (storePut σ k v) k' = storeFind σ k' := by
  have h2 : ¬ k = k' := fun hh => h hh.symm
  induction σ with
  | nil => simp [storePut, storeFind, h2]
  | cons p rest ih =>
    obtain ⟨k₀, v₀⟩ := p
    by_cases hk : k₀ = k
    · subst hk
      simp [storePut, storeFind, h2]
    · by_cases hk' : k₀ = k'
      · subst hk'
        simp [storePut, storeFind, hk]
      · simp [storePut, storeFind, hk, hk', ih]

theorem storeFind_mem {σ : Store} {k v : Bytes} (h : storeFind σ k = some v) :
    (k, v) ∈ σ := by
  induction σ with
  | nil => simp [storeFind] at h
  | cons p rest ih =>
    obtain ⟨k', v'⟩ := p
    by_cases hk : k' = k
    · subst hk
      simp [storeFind] at h
      simp [h]
    · simp [storeFind, hk] at h
      exact List.mem_cons_of_mem _ (ih h)

theorem mem_storePut {σ : Store} {k v : Bytes} {p : Bytes × Bytes}
    (h : p ∈ storePut σ k v) : p ∈ σ ∨ p = (k, v) := by
  induction σ with
  | nil => simp [storePut] at h; simp [h]
  | cons q rest ih =>
    obtain ⟨k', v'⟩ := q
    by_cases hk : k' = k
    · simp [storePut, hk] at h
      rcases h with h | h
      · right; simp [h]
      · left; exact List.mem_cons_of_mem _ h
    · simp [storePut, hk] at h
      rcases h with h | h
      · left; simp [h]
      · rcases ih h with h' | h'
        · left; exact List.mem_cons_of_mem _ h'
        · right; exact h'

theorem map_fst_mem_storePut {σ : Store} {k v a : Bytes} :
    a ∈ (storePut σ k v).map Prod.fst ↔ a ∈ σ.map Prod.fst ∨ a = k := by
  induction σ with
  | nil => simp [storePut]
  | cons q rest ih =>
    obtain ⟨k', v'⟩ := q
    by_cases hk : k' = k
    · subst hk
      simp [storePut]
      tauto
    · simp [storePut, hk, ih]
      tauto

theorem nodup_storePut {σ : Store} (k v : Bytes) (h : (σ.map Prod.fst).Nodup) :
    ((storePut σ k v).map Prod.fst).Nodup := by
  induction σ with
  | nil => simp [storePut]
  | cons q rest ih =>
    obtain ⟨k', v'⟩ := q
    rw [List.map_cons, List.nodup_cons] at h
    by_cases hk : k' = k
    · subst hk
      have hput : storePut ((k', v') :: rest) k' v = (k', v) :: rest := by
        simp [storePut]
      rw [hput, List.map_cons, List.nodup_cons]
      exact ⟨h.1, h.2⟩
    · simp only [storePut, if_neg hk, List.map_cons, List.nodup_cons]
      refine ⟨?_, ih h.2⟩
      intro hmem
      rcases map_fst_mem_storePut.mp hmem with h1 | h2
      · exact h.1 h1
      · exact hk h2

/-! ### Response-frame lemmas -/

set_option maxRecDepth 4096 in
theorem send_response_zero_status (b : Bytes) :
    respStatus (send_response 0 b) = 0 := rfl

set_option maxRecDepth 4096 in
theorem send_response_zero_body (b : Bytes) :
    respBody (send_response 0 b) = b := rfl

set_option maxRecDepth 4096 in
theorem send_response_one_status (b : Bytes) :
    respStatus (send_response 1 b) = 1 := rfl

set_option maxRecDepth 4096 in
theorem send_response_one_body (b : Bytes) :
    respBody (send_response 1 b) = notFoundBody := rfl

/-! ### Operation lemmas -/

theorem do_get_store_unchanged {σ σ' : Store} {extras keyLen : Nat} {body resp : Bytes}
    (h : do_get σ extras keyLen body = some (σ', resp)) : σ' = σ := by
  unfold do_get at h
  cases hd : decodeGetBody extras keyLen body with
  | none => rw [hd] at h; exact absurd h (by simp)
  | some key =>
    rw [hd] at h
    simp only [Option.some.injEq, Prod.mk.injEq] at h
    exact h.1.symm

theorem do_set_eq (σ : Store) (extras keyLen : Nat) (body : Bytes)
    (h4 : 4 ≤ body.length) (hk : extras + keyLen ≤ body.length) :
    do_set σ extras keyLen body =
      some (storePut σ ((body.drop extras).take keyLen)
              (body.take 4 ++ body.drop (extras + keyLen)),
            send_response 0 []) := by
  unfold do_set decodeSetBody
  rw [if_pos ⟨h4, hk⟩]

theorem do_set_shape {σ σ' : Store} {extras keyLen : Nat} {body resp : Bytes}
    (h : do_set σ extras keyLen body = some (σ', resp)) :
    ∃ key val, σ' = storePut σ key val ∧ 4 ≤ val.length ∧
      resp = send_response 0 [] := by
  unfold do_set decodeSetBody at h
  by_cases hc : 4 ≤ body.length ∧ extras + keyLen ≤ body.length
  · rw [if_pos hc] at h
    simp only [Option.some.injEq, Prod.mk.injEq] at h
    refine ⟨(body.drop extras).take keyLen, body.take 4 ++ body.drop (extras + keyLen),
      h.1.symm, ?_, h.2.symm⟩
    have : (body.take 4).length = 4 := by
      simp [List.length_take]
      omega
    simp [List.length_append, this]
  · rw [if_neg hc] at h
    exact absurd h (by simp)

theorem do_set_frame (σ : Store) (F K V : Bytes) (hF : F.length = 4) :
    do_set σ 4 K.length (F ++ K ++ V) =
      some (storePut σ K (F ++ V), send_response 0 []) := by
  have hlen : (F ++ K ++ V).length = 4 + K.length + V.length := by
    simp [List.length_append, hF]
    omega
  have hkey : ((F ++ K ++ V).drop 4).take K.length = K := by
    rw [List.append_assoc, List.drop_left' hF, List.take_left]
  have hflags : (F ++ K ++ V).take 4 = F := by
    rw [List.append_assoc, List.take_left' hF]
  have hpayload : (F ++ K ++ V).drop (4 + K.length) = V := by
    have : (F ++ K).length = 4 + K.length := by simp [List.length_append, hF]
    rw [List.drop_left' this]
  rw [do_set_eq σ 4 K.length (F ++ K ++ V) (by omega) (by omega), hkey, hflags, hpayload]

theorem do_get_found (σ : Store) (K v : Bytes)
    (hfind : storeFind σ K = some v) (hv : v ≠ []) :
    do_get σ 0 K.length K = some (σ, send_response 0 v) := by
  have hdec : decodeGetBody 0 K.length K = some K := by
    unfold decodeGetBody
    rw [if_pos (by omega)]
    simp
  have hlen : v.length ≠ 0 := by
    intro h0
    exact hv (List.eq_nil_of_length_eq_zero h0)
  simp [do_get, hdec, hfind, hlen]

theorem do_get_missing (σ : Store) (extras keyLen : Nat) (body key : Bytes)
    (hdec : decodeGetBody extras keyLen body = some key)
    (hmiss : storeFind σ key = none) :
    do_get σ extras keyLen body = some (σ, send_response 1 []) := by
  simp [do_get, hdec, hmiss]

/-! ### Request-header lemmas -/

theorem mkRequestHeader_length (o kl e bl : Nat) :
    (mkRequestHeader o kl e bl).length = 24 := rfl

theorem mkRequestHeader_magic (o kl e bl : Nat) :
    (mkRequestHeader o kl e bl).getD 0 0 = 0x80 := rfl

theorem mkRequestHeader_opcode (o kl e bl : Nat) :
    (mkRequestHeader o kl e bl).getD 1 0 = o := rfl

theorem headerExtrasLength_mkRequestHeader (o kl e bl : Nat) :
    headerExtrasLength (mkRequestHeader o kl e bl) = e := rfl

theorem headerKeyLength_mkRequestHeader (o kl e bl : Nat) (h : kl < 2 ^ 16) :
    headerKeyLength (mkRequestHeader o kl e bl) = kl := by
  have hre : headerKeyLength (mkRequestHeader o kl e bl) =
      kl / 256 % 256 * 256 + kl % 256 := rfl
  rw [hre]
  omega

theorem headerBodyLength_mkRequestHeader (o kl e bl : Nat) (h : bl < 2 ^ 32) :
    headerBodyLength (mkRequestHeader o kl e bl) = bl := by
  have hre : headerBodyLength (mkRequestHeader o kl e bl) =
      bl / 2 ^ 24 % 256 * 2 ^ 24 + bl / 2 ^ 16 % 256 * 2 ^ 16 +
        bl / 2 ^ 8 % 256 * 2 ^ 8 + bl % 256 := rfl
  rw [hre]
  have h24 : (2 : Nat) ^ 24 = 16777216 := by norm_num
  have h16 : (2 : Nat) ^ 16 = 65536 := by norm_num
  have h8 : (2 : Nat) ^ 8 = 256 := by norm_num
  have h32 : (2 : Nat) ^ 32 = 4294967296 := by norm_num
  rw [h24, h16, h8] at *
  rw [h32] at h
  omega

theorem headerOk_mkRequestHeader (o kl e bl : Nat) (ho : o = 0 ∨ o = 1) :
    headerOk (mkRequestHeader o kl e bl) :=
  ⟨mkRequestHeader_magic o kl e bl, by rw [mkRequestHeader_opcode]; exact ho⟩

/-! ### Session lemmas -/

theorem runSession_frame (σ σ' : Store) (hdr body rest frame : Bytes)
    (hh : hdr.length = 24) (hok : headerOk hdr)
    (hb : body.length = headerBodyLength hdr)
    (hd : dispatch σ hdr body = some (σ', frame)) :
    runSession σ (hdr ++ (body ++ rest)) =
      ((runSession σ' rest).1, frame ++ (runSession σ' rest).2) := by
  have hlen : 24 ≤ (hdr ++ (body ++ rest)).length := by
    simp [List.length_append, hh]
  rw [runSession, dif_pos hlen]
  simp only [List.take_left' hh, List.drop_left' hh]
  rw [if_pos hok]
  have hble : headerBodyLength hdr ≤ (body ++ rest).length := by
    rw [List.length_append, ← hb]
    omega
  rw [if_pos hble]
  simp only [List.take_left' hb, List.drop_left' hb, hd]

theorem runSession_short (σ : Store) (input : Bytes) (h : input.length < 24) :
    runSession σ input = (σ, []) := by
  rw [runSession, dif_neg (by omega)]

/-! ### Reachable-store invariants -/

theorem applyOp_keysNodup (σ : Store) (op : Op) (h : (σ.map Prod.fst).Nodup) :
    ((applyOp σ op).map Prod.fst).Nodup := by
  cases op with
  | get e k b =>
    cases hd : do_get σ e k b with
    | none => simpa only [applyOp, hd] using h
    | some p =>
      obtain ⟨σ', r⟩ := p
      simp only [applyOp, hd]
      rw [do_get_store_unchanged hd]
      exact h
  | set e k b =>
    cases hd : do_set σ e k b with
    | none => simpa only [applyOp, hd] using h
    | some p =>
      obtain ⟨σ', r⟩ := p
      simp only [applyOp, hd]
      obtain ⟨key, val, hσ, _, _⟩ := do_set_shape hd
      rw [hσ]
      exact nodup_storePut key val h

theorem applyOps_keysNodup (ops : List Op) :
    ∀ σ : Store, (σ.map Prod.fst).Nodup →
      ((applyOps σ ops).map Prod.fst).Nodup := by
  induction ops with
  | nil => intro σ h; exact h
  | cons op ops ih =>
    intro σ h
    simp only [applyOps, List.foldl_cons] at *
    exact ih _ (applyOp_keysNodup σ op h)

theorem applyOp_valsLong (σ : Store) (op : Op) (h : ∀ p ∈ σ, 4 ≤ p.2.length) :
    ∀ p ∈ applyOp σ op, 4 ≤ p.2.length := by
  cases op with
  | get e k b =>
    cases hd : do_get σ e k b with
    | none => simpa only [applyOp, hd] using h
    | some p =>
      obtain ⟨σ', r⟩ := p
      simp only [applyOp, hd]
      rw [do_get_store_unchanged hd]
      exact h
  | set e k b =>
    cases hd : do_set σ e k b with
    | none => simpa only [applyOp, hd] using h
    | some p =>
      obtain ⟨σ', r⟩ := p
      simp only [applyOp, hd]
      obtain ⟨key, val, hσ, hval, _⟩ := do_set_shape hd
      rw [hσ]
      intro q hq
      rcases mem_storePut hq with hq' | hq'
      · exact h q hq'
      · rw [hq']
        exact hval

theorem applyOps_valsLong (ops : List Op) :
    ∀ σ : Store, (∀ p ∈ σ, 4 ≤ p.2.length) →
      ∀ p ∈ applyOps σ ops, 4 ≤ p.2.length := by
  induction ops with
  | nil => intro σ h; exact h
  | cons op ops ih =>
    intro σ h
    simp only [applyOps, List.foldl_cons] at *
    exact ih _ (applyOp_valsLong σ op h)

theorem do_get_hit (σ : Store) (extras keyLen : Nat) (body key v : Bytes)
    (hdec : decodeGetBody extras keyLen body = some key)
    (hfind : storeFind σ key = some v) (hv : v ≠ []) :
    do_get σ extras keyLen body = some (σ, send_response 0 v) := by
  have hlen : v.length ≠ 0 := by
    intro h0
    exact hv (List.eq_nil_of_length_eq_zero h0)
  simp [do_get, hdec, hfind, hlen]

theorem append_flags_ne_nil (F V : Bytes) (hF : F.length = 4) : F ++ V ≠ [] := by
  intro hnil
  have := congrArg List.length hnil
  simp [List.length_append, hF] at this

/-! ### Claims -/

/-- C1: for any key K and any value V (including the empty value),
SET(K, V) with a 4-byte flags extras block and then GET(K) on the
resulting store returns a response with status NoError whose body is
the 4 flags bytes followed by V. -/
theorem claim_C1_set_get_roundtrip (σ : Store) (F K V : Bytes) (hF : F.length = 4) :
    do_set σ 4 K.length (F ++ K ++ V) =
      some (storePut σ K (F ++ V), send_response 0 []) ∧
    do_get (storePut σ K (F ++ V)) 0 K.length K =
      some (storePut σ K (F ++ V), send_response 0 (F ++ V)) ∧
    respStatus (send_response 0 (F ++ V)) = 0 ∧
    respBody (send_response 0 (F ++ V)) = F ++ V := by
  refine ⟨do_set_frame σ F K V hF, ?_,
    send_response_zero_status _, send_response_zero_body _⟩
  exact do_get_found _ K (F ++ V) (storeFind_storePut_self σ K (F ++ V))
    (append_flags_ne_nil F V hF)

theorem claim_C1_witness :
    do_set storeEmpty 4 [107].length ([1, 2, 3, 4] ++ [107] ++ [118]) =
      some (storePut storeEmpty [107] ([1, 2, 3, 4] ++ [118]), send_response 0 []) ∧
    do_get (storePut storeEmpty [107] ([1, 2, 3, 4] ++ [118])) 0 [107].length [107] =
      some (storePut storeEmpty [107] ([1, 2, 3, 4] ++ [118]),
        send_response 0 ([1, 2, 3, 4] ++ [118])) ∧
    respStatus (send_response 0 ([1, 2, 3, 4] ++ [118])) = 0 ∧
    respBody (send_response 0 ([1, 2, 3, 4] ++ [118])) = [1, 2, 3, 4] ++ [118] :=
  claim_C1_set_get_roundtrip storeEmpty [1, 2, 3, 4] [107] [118] rfl

/-- C2 (code bug): on a GET miss the source captures `bodyLength` from
the still-empty buffer before substituting the literal `Not found`
body, so the frame carries 9 body bytes while header bytes 8..11 (the
total body length field) are all zero.  Evaluated here at the failing
input: a GET for key "foo" on the empty store. -/
theorem claim_C2_miss_length_field_is_zero :
    do_get storeEmpty 0 3 [102, 111, 111] = some (storeEmpty, send_response 1 []) ∧
    respBody (send_response 1 []) = notFoundBody ∧
    notFoundBody.length = 9 ∧
    (send_response 1 []).getD 8 0 = 0 ∧
    (send_response 1 []).getD 9 0 = 0 ∧
    (send_response 1 []).getD 10 0 = 0 ∧
    (send_response 1 []).getD 11 0 = 0 := by
  decide

/-- C3: a GET for a key that is absent from the store (in particular
any GET on the empty store) produces a response with status KeyNotFound
(low status byte 1) whose body bytes are exactly the ASCII characters
of "Not found". -/
theorem claim_C3_get_miss (σ : Store) (extras keyLen : Nat) (body key : Bytes)
    (hdec : decodeGetBody extras keyLen body = some key)
    (hmiss : storeFind σ key = none) :
    do_get σ extras keyLen body = some (σ, send_response 1 []) ∧
    respStatus (send_response 1 []) = 1 ∧
    respBody (send_response 1 []) = notFoundBody ∧
    notFoundBody = ['N', 'o', 't', ' ', 'f', 'o', 'u', 'n', 'd'].map Char.toNat := by
  refine ⟨do_get_missing σ extras keyLen body key hdec hmiss,
    send_response_one_status _, send_response_one_body _, by decide⟩

theorem claim_C3_witness :
    do_get storeEmpty 0 3 [102, 111, 112] = some (storeEmpty, send_response 1 []) ∧
    respStatus (send_response 1 []) = 1 ∧
    respBody (send_response 1 []) = notFoundBody ∧
    notFoundBody = ['N', 'o', 't', ' ', 'f', 'o', 'u', 'n', 'd'].map Char.toNat :=
  claim_C3_get_miss storeEmpty 0 3 [102, 111, 112] [102, 111, 112] (by decide) rfl

/-- C4: after any sequence of SET and GET operations starting from the
empty store, the store holds at most one value per distinct key (its
key list has no duplicates), and SET(K,V1) then SET(K,V2) then GET(K)
returns V2's stored bytes (flags2 ++ V2), never V1's. -/
theorem claim_C4_unique_keys_and_overwrite :
    (∀ ops : List Op, ((applyOps storeEmpty ops).map Prod.fst).Nodup) ∧
    (∀ (σ : Store) (F1 V1 F2 V2 K : Bytes), F1.length = 4 → F2.length = 4 →
      do_set σ 4 K.length (F1 ++ K ++ V1) =
        some (storePut σ K (F1 ++ V1), send_response 0 []) ∧
      do_set (storePut σ K (F1 ++ V1)) 4 K.length (F2 ++ K ++ V2) =
        some (storePut (storePut σ K (F1 ++ V1)) K (F2 ++ V2), send_response 0 []) ∧
      do_get (storePut (storePut σ K (F1 ++ V1)) K (F2 ++ V2)) 0 K.length K =
        some (storePut (storePut σ K (F1 ++ V1)) K (F2 ++ V2),
          send_response 0 (F2 ++ V2)) ∧
      respBody (send_response 0 (F2 ++ V2)) = F2 ++ V2) := by
  constructor
  · intro ops
    exact applyOps_keysNodup ops storeEmpty (by simp [storeEmpty])
  · intro σ F1 V1 F2 V2 K h1 h2
    refine ⟨do_set_frame σ F1 K V1 h1, do_set_frame _ F2 K V2 h2, ?_,
      send_response_zero_body _⟩
    exact do_get_found _ K (F2 ++ V2) (storeFind_storePut_self _ K (F2 ++ V2))
      (append_flags_ne_nil F2 V2 h2)

theorem claim_C4_witness :
    ((applyOps storeEmpty
        [Op.set 4 1 [1, 1, 1, 1, 107, 5], Op.set 4 1 [2, 2, 2, 2, 107, 6]]).map
      Prod.fst).Nodup ∧
    do_get (storePut (storePut storeEmpty [107] ([1, 1, 1, 1] ++ [5])) [107]
        ([2, 2, 2, 2] ++ [6])) 0 [107].length [107] =
      some (storePut (storePut storeEmpty [107] ([1, 1, 1, 1] ++ [5])) [107]
          ([2, 2, 2, 2] ++ [6]),
        send_response 0 ([2, 2, 2, 2] ++ [6])) :=
  ⟨claim_C4_unique_keys_and_overwrite.1 _,
   (claim_C4_unique_keys_and_overwrite.2 storeEmpty [1, 1, 1, 1] [5] [2, 2, 2, 2] [6]
      [107] rfl rfl).2.2.1⟩

/-- C5: decoding a GET body fails (yields no key) exactly when the body
is shorter than extrasLength + keyLength as declared in the header; when
the body is long enough, the key is the range starting at offset
extrasLength with length keyLength. -/
theorem claim_C5_get_body_bounds (extras keyLen : Nat) (body : Bytes) :
    (decodeGetBody extras keyLen body = none ↔ body.length < extras + keyLen) ∧
    (extras + keyLen ≤ body.length →
      decodeGetBody extras keyLen body = some ((body.drop extras).take keyLen)) := by
  unfold decodeGetBody
  constructor
  · by_cases h : extras + keyLen ≤ body.length
    · rw [if_pos h]
      simp
      omega
    · rw [if_neg h]
      simp
      omega
  · intro h
    rw [if_pos h]

theorem claim_C5_witness :
    decodeGetBody 2 3 [9] = none ∧
    decodeGetBody 0 2 [7, 8, 9] = some (([7, 8, 9].drop 0).take 2) :=
  ⟨(claim_C5_get_body_bounds 2 3 [9]).1.mpr (by decide),
   (claim_C5_get_body_bounds 0 2 [7, 8, 9]).2 (by decide)⟩

/-- C7: when a SET body decodes, the 4 flags bytes are the first 4
bytes of the body regardless of the declared extras length, the key is
the range at offset extrasLength of length keyLength, the payload is
everything after the key region, and the value written to the store is
flags ++ payload. -/
theorem claim_C7_set_decode_layout (σ : Store) (extras keyLen : Nat) (body : Bytes)
    (h4 : 4 ≤ body.length) (hk : extras + keyLen ≤ body.length) :
    decodeSetBody extras keyLen body =
      some ((body.drop extras).take keyLen, body.take 4,
        body.drop (extras + keyLen)) ∧
    do_set σ extras keyLen body =
      some (storePut σ ((body.drop extras).take keyLen)
              (body.take 4 ++ body.drop (extras + keyLen)),
            send_response 0 []) := by
  constructor
  · unfold decodeSetBody
    rw [if_pos ⟨h4, hk⟩]
  · exact do_set_eq σ extras keyLen body h4 hk

theorem claim_C7_witness :
    decodeSetBody 6 1 [1, 2, 3, 4, 5, 6, 107, 9] =
      some (([1, 2, 3, 4, 5, 6, 107, 9].drop 6).take 1,
        [1, 2, 3, 4, 5, 6, 107, 9].take 4,
        [1, 2, 3, 4, 5, 6, 107, 9].drop 7) ∧
    do_set storeEmpty 6 1 [1, 2, 3, 4, 5, 6, 107, 9] =
      some (storePut storeEmpty (([1, 2, 3, 4, 5, 6, 107, 9].drop 6).take 1)
              ([1, 2, 3, 4, 5, 6, 107, 9].take 4 ++ [1, 2, 3, 4, 5, 6, 107, 9].drop 7),
            send_response 0 []) :=
  claim_C7_set_decode_layout storeEmpty 6 1 [1, 2, 3, 4, 5, 6, 107, 9]
    (by decide) (by decide)

/-- C9: every store reachable from the empty store by SET and GET
operations holds only values of length at least 4 (the flags always
make it into the stored value), and on such a store a GET whose key is
found responds with status NoError and the non-empty stored value as
body: reporting status from body emptiness never misclassifies a hit as
a miss. -/
theorem claim_C9_hit_never_reported_missing :
    (∀ ops : List Op, ∀ p ∈ applyOps storeEmpty ops, 4 ≤ p.2.length) ∧
    (∀ σ : Store, (∀ p ∈ σ, 4 ≤ p.2.length) →
      ∀ (extras keyLen : Nat) (body key v : Bytes),
        decodeGetBody extras keyLen body = some key →
        storeFind σ key = some v →
        do_get σ extras keyLen body = some (σ, send_response 0 v) ∧
        respStatus (send_response 0 v) = 0 ∧
        respBody (send_response 0 v) = v ∧ v ≠ []) := by
  constructor
  · intro ops
    exact applyOps_valsLong ops storeEmpty (by simp [storeEmpty])
  · intro σ hinv extras keyLen body key v hdec hfind
    have hv : v ≠ [] := by
      have h4 := hinv (key, v) (storeFind_mem hfind)
      intro hnil
      rw [hnil] at h4
      simp at h4
    exact ⟨do_get_hit σ extras keyLen body key v hdec hfind hv,
      send_response_zero_status _, send_response_zero_body _, hv⟩

theorem claim_C9_witness :
    do_get [([107], [1, 2, 3, 4, 5])] 0 1 [107] =
      some ([([107], [1, 2, 3, 4, 5])], send_response 0 [1, 2, 3, 4, 5]) ∧
    respStatus (send_response 0 [1, 2, 3, 4, 5]) = 0 ∧
    respBody (send_response 0 [1, 2, 3, 4, 5]) = [1, 2, 3, 4, 5] ∧
    [1, 2, 3, 4, 5] ≠ ([] : Bytes) :=
  claim_C9_hit_never_reported_missing.2 [([107], [1, 2, 3, 4, 5])] (by decide)
    0 1 [107] [107] [1, 2, 3, 4, 5] (by decide) rfl

/-- C10: a GET never modifies the store: whenever a GET produces a
result, the store it returns is the store it was given. -/
theorem claim_C10_get_is_readonly (σ σ' : Store) (extras keyLen : Nat)
    (body resp : Bytes) (h : do_get σ extras keyLen body = some (σ', resp)) :
    σ' = σ :=
  do_get_store_unchanged h

theorem claim_C10_witness :
    [([107], [1, 2, 3, 4, 5])] = [([107], [1, 2, 3, 4, 5])] :=
  claim_C10_get_is_readonly [([107], [1, 2, 3, 4, 5])] [([107], [1, 2, 3, 4, 5])]
    0 1 [107] (send_response 0 [1, 2, 3, 4, 5]) (by decide)

/-- C6: an incoming 24-byte header whose magic is not 0x80 or whose
opcode is neither 0x00 (GET) nor 0x01 (SET) makes the session stop:
no response bytes are written, the store is untouched, and the read
loop does not continue. -/
theorem claim_C6_bad_header_closes_silently (σ : Store) (input : Bytes)
    (h24 : 24 ≤ input.length) (hbad : ¬ headerOk (input.take 24)) :
    runSession σ input = (σ, []) := by
  rw [runSession, dif_pos h24]
  simp only [if_neg hbad]

theorem claim_C6_witness :
    runSession storeEmpty (List.replicate 24 0) = (storeEmpty, []) ∧
    runSession storeEmpty (0x80 :: 5 :: List.replicate 22 0) = (storeEmpty, []) :=
  ⟨claim_C6_bad_header_closes_silently storeEmpty _ (by decide) (by decide),
   claim_C6_bad_header_closes_silently storeEmpty _ (by decide) (by decide)⟩

/-- C8: on one connection, a SET frame followed back to back by a GET
frame for the same key produces the SET response followed by a GET
response carrying the just-stored value (flags ++ V), followed by the
output for the remaining input, which runs on the updated store: the
response to request N is emitted before request N+1 is processed, and
the pipelined GET always observes the SET's value. -/
theorem claim_C8_pipelined_set_then_get (σ : Store) (F K V rest : Bytes)
    (hF : F.length = 4) (hK : K.length < 2 ^ 16)
    (hbl : 4 + K.length + V.length < 2 ^ 32) :
    runSession σ (encodeSetRequest F K V ++ (encodeGetRequest K ++ rest)) =
      ((runSession (storePut σ K (F ++ V)) rest).1,
        send_response 0 [] ++
          (send_response 0 (F ++ V) ++ (runSession (storePut σ K (F ++ V)) rest).2)) := by
  have hK32 : K.length < 2 ^ 32 := lt_trans hK (by norm_num)
  have hb1 : (F ++ K ++ V).length =
      headerBodyLength (mkRequestHeader 1 K.length 4 (4 + K.length + V.length)) := by
    rw [headerBodyLength_mkRequestHeader _ _ _ _ hbl]
    simp [List.length_append, hF]
    omega
  have hb2 : K.length = headerBodyLength (mkRequestHeader 0 K.length 0 K.length) :=
    (headerBodyLength_mkRequestHeader _ _ _ _ hK32).symm
  have hd1 : dispatch σ (mkRequestHeader 1 K.length 4 (4 + K.length + V.length))
      (F ++ K ++ V) = some (storePut σ K (F ++ V), send_response 0 []) := by
    unfold dispatch
    rw [mkRequestHeader_opcode, headerExtrasLength_mkRequestHeader,
      headerKeyLength_mkRequestHeader _ _ _ _ hK, if_neg (by norm_num)]
    exact do_set_frame σ F K V hF
  have hd2 : dispatch (storePut σ K (F ++ V)) (mkRequestHeader 0 K.length 0 K.length)
      K = some (storePut σ K (F ++ V), send_response 0 (F ++ V)) := by
    unfold dispatch
    rw [mkRequestHeader_opcode, headerExtrasLength_mkRequestHeader,
      headerKeyLength_mkRequestHeader _ _ _ _ hK, if_pos rfl]
    exact do_get_found _ K (F ++ V) (storeFind_storePut_self σ K (F ++ V))
      (append_flags_ne_nil F V hF)
  have hok1 : headerOk (mkRequestHeader 1 K.length 4 (4 + K.length + V.length)) :=
    headerOk_mkRequestHeader 1 K.length 4 _ (Or.inr rfl)
  have hok2 : headerOk (mkRequestHeader 0 K.length 0 K.length) :=
    headerOk_mkRequestHeader 0 K.length 0 _ (Or.inl rfl)
  have hassoc : encodeSetRequest F K V ++ (encodeGetRequest K ++ rest) =
      mkRequestHeader 1 K.length 4 (4 + K.length + V.length) ++
        ((F ++ K ++ V) ++
          (mkRequestHeader 0 K.length 0 K.length ++ (K ++ rest))) := by
    simp only [encodeSetRequest, encodeGetRequest, List.append_assoc]
  rw [hassoc,
    runSession_frame σ (storePut σ K (F ++ V)) _ (F ++ K ++ V)
      (mkRequestHeader 0 K.length 0 K.length ++ (K ++ rest))
      (send_response 0 []) (mkRequestHeader_length 1 K.length 4 _) hok1 hb1 hd1,
    runSession_frame (storePut σ K (F ++ V)) (storePut σ K (F ++ V)) _ K rest
      (send_response 0 (F ++ V)) (mkRequestHeader_length 0 K.length 0 _) hok2 hb2 hd2]

theorem claim_C8_witness :
    runSession storeEmpty
        (encodeSetRequest [1, 2, 3, 4] [107] [118] ++ (encodeGetRequest [107] ++ [])) =
      ((runSession (storePut storeEmpty [107] ([1, 2, 3, 4] ++ [118])) []).1,
        send_response 0 [] ++
          (send_response 0 ([1, 2, 3, 4] ++ [118]) ++
            (runSession (storePut storeEmpty [107] ([1, 2, 3, 4] ++ [118])) []).2)) :=
  claim_C8_pipelined_set_then_get storeEmpty [1, 2, 3, 4] [107] [118] []
    rfl (by decide) (by decide)
